import Mathlib

/-!
Verification of the `log_calls` settings engine and call instrumentation.

Shallow embedding of the core of the `log_calls` repository:

* `deco_settings.py` — `DecoSetting` descriptors and `DecoSettingsMapping`
  (tagged direct/indirect setting values, `__setitem__`, `__getitem__`,
  `update`, `as_OrderedDict`, `get_final_value`);
* `log_calls.py` — the per-instance counters and bounded call history
  (`_make_call_history`, `_add_call`, `_add_to_history`, `clear_history`),
  the parallel logging-state stacks (`_logging_state_push` / `_logging_state_pop`),
  and the control flow of the wrapper `f_log_calls_wrapper_`.

Python strings are modelled as `List Char`; Python values by the small
universe `PyVal` (the value types the settings engine manipulates).
Fallible operations return `Except`/`Option`; a `none`/`.error` models the
exception the Python code raises at that point.
-/

/-- Python strings, modelled as lists of characters (`value[-1]`,
`value[:-1]` and `+ '='` become `getLast?`, `dropLast` and `++ ['=']`). -/
abbrev PyStr := List Char

/-- The value types that `DecoSetting.final_type` takes for the settings
modelled here (`bool`, `int`, `str`). The stream/logger types of the
`file`/`logger` settings are outside this universe; no claim concerns them. -/
inductive PyType where
  | bool
  | int
  | str
deriving DecidableEq, Repr

/-- The Python values the settings engine manipulates: `None`, booleans,
integers and strings. -/
inductive PyVal where
  | none
  | bool  (b : Bool)
  | int   (n : Int)
  | str   (s : PyStr)
deriving DecidableEq, Repr

/-- Python truthiness: `None`, `False`, `0` and `''` are falsy. -/
def pyTruthy : PyVal → Bool
  | .none => false
  | .bool b => b
  | .int n => n != 0
  | .str s => !s.isEmpty

/-- Python `isinstance(v, t)` for the types of this universe.
`bool` is a subclass of `int` in Python, so `isinstance(True, int)` holds. -/
def pyIsinst : PyVal → PyType → Bool
  | .bool _, .bool => true
  | .bool _, .int => true
  | .int _, .int => true
  | .str _, .str => true
  | _, _ => false

/-- Python `v < 0` for the int-like values (`int` and `bool`).
On other values the source comparison would raise `TypeError`; the
theorems only use this on int-like values (see `pyIsIntLike`). -/
def pyLt0 : PyVal → Bool
  | .int n => n < 0
  | _ => false

/-- Predicate: `v` is an `int` or a `bool` — the values on which Python's `v < 0`
is defined. -/
def pyIsIntLike : PyVal → Bool
  | .int _ => true
  | .bool _ => true
  | _ => false

/-- First value bound to `key` in an association list (Python `d[key]`
membership/lookup on a dict, whose insertion order the list mirrors). -/
def assocFind {α : Type} : List (PyStr × α) → PyStr → Option α
  | [], _ => Option.none
  | (k, a) :: rest, key => if k = key then some a else assocFind rest key

/-- Python `d[key] = a` on an ordered dict: overwrite in place if `key` is
present (keeping its position), else append at the end. -/
def odSet {α : Type} : List (PyStr × α) → PyStr → α → List (PyStr × α)
  | [], key, a => [(key, a)]
  | (k, b) :: rest, key, a =>
      if k = key then (key, a) :: rest else (k, b) :: odSet rest key a

/-- Model of `DecoSetting` (deco_settings.py lines 60-97): static metadata of one
setting. The extension attributes (`more_attributes`) are not used by any
modelled operation. -/
structure DecoSetting where
  name : PyStr
  final_type : PyType
  default : PyVal
  allow_falsy : Bool
  allow_indirect : Bool := true
  mutable : Bool := true
deriving DecidableEq, Repr

/-- The per-class ordered table of `DecoSetting`s
(`_classname2SettingsData_dict[classname]`), in registration order. -/
abbrev SettingsDict := List DecoSetting

/-- Lookup of a setting descriptor by name in the class settings table. -/
def lookupSetting (csd : SettingsDict) (name : PyStr) : Option DecoSetting :=
  csd.find? (fun info => info.name = name)

/-- One stored entry of `_tagged_values_dict`: `(is_indirect, value)`. -/
abbrev TaggedValue := Bool × PyVal

/-- Model of `_tagged_values_dict`: ordered mapping from setting name to tagged value. -/
abbrev OD := List (PyStr × TaggedValue)

/-- A call-time argument mapping (e.g. the `kwargs` dict): names to values. -/
abbrev PyDict := List (PyStr × PyVal)

/-- The wrapped function's signature, as `get_final_value` consumes it:
each parameter name mapped to its declared default, when it has one. -/
abbrev FParams := List (PyStr × Option PyVal)

/-- Errors raised by `DecoSettingsMapping.__setitem__`:
`KeyError` for an unregistered key (line 218) and the `ValueError` for a
write-once setting already set (line 230, the spec's `SettingIsImmutable`). -/
inductive SetErr where
  | NoSuchSetting
  | SettingIsImmutable
deriving DecidableEq, Repr

/-- Python `value[:-1]` applied when `value[-1] == '='` (deco_settings.py 246-247):
strip one trailing marker character, if present. -/
def stripMarker (s : PyStr) : PyStr :=
  if s.getLast? = some '=' then s.dropLast else s

/-- Lines 238-241 of deco_settings.py: fixup of a direct value.
The source's line 224 reads `allow_falsy = info.default` (not
`info.allow_falsy`), so the falsy test below uses the truthiness of
`info.default`, exactly as the source does. -/
def directFixupVal (info : DecoSetting) (value : PyVal) : PyVal :=
  if (!pyTruthy value && !pyTruthy info.default) || !pyIsinst value info.final_type then
    info.default
  else value

/-- Lines 236-252 of deco_settings.py: classify a value as direct or
indirect and compute the stored value. A value that is not a nonempty
string is direct (after `directFixupVal`); a nonempty string is indirect
unconditionally when `final_type` is not `str` (stripping one trailing
marker), and indirect iff it ends in the marker when `final_type` is `str`. -/
def classifyTagged (info : DecoSetting) (value : PyVal) : TaggedValue :=
  match value with
  | .str s =>
    if s = [] then (false, directFixupVal info (.str s))
    else if info.final_type ≠ PyType.str then (true, .str (stripMarker s))
    else if s.getLast? = some '=' then (true, .str s.dropLast)
    else (false, .str s)
  | v => (false, directFixupVal info v)

/-- The pair stored by `__setitem__` once its checks pass: verbatim
`(False, value)` when the setting disallows indirection (line 232-234),
else the classification of lines 236-252. -/
def setitemPair (info : DecoSetting) (value : PyVal) : TaggedValue :=
  if !info.allow_indirect then (false, value) else classifyTagged info value

/-- Model of `DecoSettingsMapping.__setitem__` (deco_settings.py lines 195-254):
`KeyError` if the key is unregistered; `ValueError` if the setting is
immutable, already present and `_force_mutable` is false; otherwise store
the classified tagged value. -/
def setitem (csd : SettingsDict) (tvd : OD) (key : PyStr) (value : PyVal)
    (force_mutable : Bool) : Except SetErr OD :=
  match lookupSetting csd key with
  | Option.none => .error .NoSuchSetting
  | some info =>
    if !info.mutable && !force_mutable && (assocFind tvd key).isSome then
      .error .SettingIsImmutable
    else
      .ok (odSet tvd key (setitemPair info value))

/-- Python `value + '='`: re-append the marker. Indirect stored values are always
strings (only nonempty strings are classified indirect); on a non-string
the source's concatenation would raise, so the value is returned as-is. -/
def pyAddMarker : PyVal → PyVal
  | .str s => .str (s ++ ['='])
  | v => v

/-- Model of `DecoSettingsMapping.__getitem__` (lines 256-258): the literal value
for a direct entry; the reference name with the marker re-appended for an
indirect entry. `none` models the `KeyError` on a missing key. -/
def getitem (tvd : OD) (key : PyStr) : Option PyVal :=
  (assocFind tvd key).map fun tg => if tg.1 then pyAddMarker tg.2 else tg.2

/-- Model of `as_OrderedDict` (lines 303-307): each key mapped to the raw stored
value `v[1]` — for an indirect entry, the reference name without marker. -/
def as_OrderedDict (tvd : OD) : PyDict :=
  tvd.map fun kv => (kv.1, kv.2.2)

/-- One source dict of `DecoSettingsMapping.update` (lines 294-301):
skip a key whose descriptor exists and is immutable, else `__setitem__`
(whose `KeyError` for an unregistered key propagates). -/
def updatePairs (csd : SettingsDict) (tvd : OD) : PyDict → Except SetErr OD
  | [] => .ok tvd
  | (k, v) :: rest =>
    match lookupSetting csd k with
    | some info =>
      if !info.mutable then updatePairs csd tvd rest
      else
        match setitem csd tvd k v false with
        | .error e => .error e
        | .ok tvd' => updatePairs csd tvd' rest
    | Option.none =>
      match setitem csd tvd k v false with
      | .error e => .error e
      | .ok tvd' => updatePairs csd tvd' rest

/-- Model of `DecoSettingsMapping.update` (lines 284-301) over its source dicts,
in order. -/
def update (csd : SettingsDict) (tvd : OD) : List PyDict → Except SetErr OD
  | [] => .ok tvd
  | d :: rest =>
    match updatePairs csd tvd d with
    | .error e => .error e
    | .ok tvd' => update csd tvd' rest

/-- The loop of `get_final_value` lines 341-346: first dict (in order)
containing the key supplies the value. A non-string reference name is
found in no (string-keyed) kwargs dict, as in Python. -/
def findInDicts (dicts : List PyDict) (k : PyVal) : Option PyVal :=
  match k with
  | .str s => dicts.findSome? (fun d => assocFind d s)
  | _ => Option.none

/-- Modelled from the spec: `is_keyword_param` lives in `helpers.py`,
which is absent from `src/`. Spec §4.2 `resolve`: "if `callSignature`
declares a parameter named `r` with a default, use that parameter's
default". Returns that default when the reference names such a parameter
(an `fparams` that is empty or lacks the name yields `none`, matching
`if fparams and is_keyword_param(fparams.get(di_val))` being falsy). -/
def fparamsGetDefault (fparams : FParams) (k : PyVal) : Option PyVal :=
  match k with
  | .str r =>
    match assocFind fparams r with
    | some (some d) => some d
    | _ => Option.none
  | _ => Option.none

/-- Model of `DecoSettingsMapping.get_final_value` (deco_settings.py lines 316-359):
a direct entry's value is returned as stored; an indirect entry's
reference is searched in the dicts, then in the signature defaults, then
falls back to the descriptor default, and the result is fixed up with the
descriptor's `allow_falsy` (line 338, the correctly-read field) and
`final_type`. `none` models the `KeyError` on a missing key/descriptor. -/
def get_final_value (csd : SettingsDict) (tvd : OD) (name : PyStr)
    (dicts : List PyDict) (fparams : FParams) : Option PyVal :=
  match assocFind tvd name with
  | Option.none => Option.none
  | some (indirect, di_val) =>
    if !indirect then some di_val
    else
      match lookupSetting csd name with
      | Option.none => Option.none
      | some setting_info =>
        let val :=
          match findInDicts dicts di_val with
          | some v => v
          | Option.none =>
            match fparamsGetDefault fparams di_val with
            | some d => d
            | Option.none => setting_info.default
        some (if (!pyTruthy val && !setting_info.allow_falsy)
                 || !pyIsinst val setting_info.final_type
              then setting_info.default else val)

instance {ε α : Type} [DecidableEq ε] [DecidableEq α] : DecidableEq (Except ε α) := fun x y =>
  match x, y with
  | .ok a, .ok b =>
    if h : a = b then isTrue (by rw [h]) else isFalse (by simp [h])
  | .error e, .error f =>
    if h : e = f then isTrue (by rw [h]) else isFalse (by simp [h])
  | .ok _, .error _ => isFalse (by simp)
  | .error _, .ok _ => isFalse (by simp)

/-- One record of the call history (log_calls.py lines 66-81), reduced to
the fields the claims concern: the 1-based call number and the return
value (which identifies the record and its position in the sequence). The
remaining fields (argument splits, elapsed wall/CPU floats, timestamp
string, names, caller chain) do not affect any claim. -/
structure CallRecord where
  call_num : Nat
  retval : PyVal
deriving DecidableEq, Repr

/-- The maxlen computed by `_deco_base._make_call_history` (lines 523-524):
`deque(maxlen = max_history if max_history > 0 else None)`. -/
def _make_call_history (max_history : Int) : Option Nat :=
  if max_history > 0 then some max_history.toNat else Option.none

/-- Python `deque.append` with the given `maxlen`: appending to a full bounded
deque evicts the oldest (leftmost) records. -/
def dequeAppend (maxlen : Option Nat) (h : List CallRecord) (r : CallRecord) :
    List CallRecord :=
  match maxlen with
  | Option.none => h ++ [r]
  | some m => (h ++ [r]).drop ((h ++ [r]).length - m)

/-- The mutable per-decorator-instance state the claims concern
(log_calls.py `__init__` lines 662-689): the two call counters,
`max_history`, the call-history deque, and the three parallel stacks
maintained by `_logging_state_push`/`_logging_state_pop`. The stacks are
modelled head-first (the source appends and pops at the right end); the
logging function itself is opaque (an optional token). The float
accumulators `_elapsed_secs_logged`/`_CPU_secs_logged` are omitted
(floating point; no claim concerns them). -/
structure DecoState where
  num_calls_total : Nat
  num_calls_logged : Nat
  max_history : Int
  call_history : List CallRecord
  logging_fn : List (Option Nat)
  indent_len : List Nat
  output_fname : List PyStr
deriving DecidableEq, Repr

/-- The state as `__init__` (lines 662-689) creates it: zeroed counters,
empty history with the given `max_history`, empty stacks. -/
def initState (max_history : Int) : DecoState :=
  { num_calls_total := 0, num_calls_logged := 0, max_history := max_history,
    call_history := [], logging_fn := [], indent_len := [], output_fname := [] }

/-- Model of `clear_history` (lines 526-536) on the state: counters reset to zero,
`max_history` replaced, history emptied. (The source also zeroes the
elapsed-time floats, omitted here, and force-writes `max_history` back
into the settings mapping, an object outside this record.) -/
def clear_history (st : DecoState) (max_history : Int) : DecoState :=
  { st with num_calls_total := 0, num_calls_logged := 0,
            max_history := max_history, call_history := [] }

/-- Model of `_add_call` (lines 538-541): bump the total counter, and the logged
counter when the call is logged. -/
def _add_call (st : DecoState) (logged : Bool) : DecoState :=
  { st with num_calls_total := st.num_calls_total + 1,
            num_calls_logged := st.num_calls_logged + (if logged then 1 else 0) }

/-- Model of `_add_to_history` (lines 547-580): append a `CallRecord` whose
`call_num` is the current `_num_calls_logged` (the counters were already
bumped by `_add_call`), evicting per the deque's maxlen. -/
def _add_to_history (st : DecoState) (rv : PyVal) : DecoState :=
  let r : CallRecord := { call_num := st.num_calls_logged, retval := rv }
  { st with call_history :=
      dequeAppend (_make_call_history st.max_history) st.call_history r }

/-- Model of `_logging_state_push` (lines 691-694): push onto the three parallel
stacks. -/
def _logging_state_push (st : DecoState) (fn : Option Nat) (indent_len : Nat)
    (output_fname : PyStr) : DecoState :=
  { st with logging_fn := fn :: st.logging_fn,
            indent_len := indent_len :: st.indent_len,
            output_fname := output_fname :: st.output_fname }

/-- Model of `_logging_state_pop` (lines 696-699): pop the three parallel stacks.
(Python `pop()` on an empty list raises; the wrapper only pops after its
own push, so the stacks are nonempty at every pop.) -/
def _logging_state_pop (st : DecoState) : DecoState :=
  { st with logging_fn := st.logging_fn.tail,
            indent_len := st.indent_len.tail,
            output_fname := st.output_fname.tail }

/-- An exception as the wrapper model sees it: a `KeyError` from a
settings lookup, or an exception raised by the wrapped function or by a
handler (tagged by a number). -/
inductive Exn where
  | keyError
  | user (code : Nat)
deriving DecidableEq, Repr

/-- What one registered pre- or post-call handler does when invoked,
abstracted from its context: raise (`error code`) or return an optional
message. Paired with its setting name in the handler lists. -/
abbrev HandlerBehavior := Except Nat (Option PyStr)

/-- The handler loops of the wrapper (lines 1020-1026 and 1057-1063):
for each registered handler, in order, resolve its setting; when truthy,
invoke the handler. Returns the number of handlers invoked and the first
exception, if any (a raising handler aborts the rest; a failing settings
lookup is the `KeyError` the source's `_get_final_value` would raise). -/
def runHandlers (csd : SettingsDict) (tvd : OD) (kwargs : PyDict)
    (fparams : FParams) : List (PyStr × HandlerBehavior) → Nat × Option Exn
  | [] => (0, Option.none)
  | (nm, behavior) :: rest =>
    match get_final_value csd tvd nm [kwargs] fparams with
    | Option.none => (0, some .keyError)
    | some v =>
      if pyTruthy v then
        match behavior with
        | .error e => (1, some (.user e))
        | .ok _ =>
          let r := runHandlers csd tvd kwargs fparams rest
          (r.1 + 1, r.2)
      else runHandlers csd tvd kwargs fparams rest

/-- Everything a wrapper invocation produces: the call's outcome (return
value or propagated exception), the decorator state afterwards, and how
many pre- and post-call handlers were invoked. -/
structure WrapperResult where
  result : Except Exn PyVal
  state : DecoState
  preCount : Nat
  postCount : Nat
deriving DecidableEq, Repr

/-- Model of `_get_final_value` inside the wrapper (lines 873-876), with the
`KeyError` a missing key would raise propagating as the call's outcome. -/
def resolveOr (csd : SettingsDict) (tvd : OD) (kwargs : PyDict)
    (fparams : FParams) (key : PyStr) (st : DecoState)
    (k : PyVal → WrapperResult) : WrapperResult :=
  match get_final_value csd tvd key [kwargs] fparams with
  | Option.none => ⟨.error .keyError, st, 0, 0⟩
  | some v => k v

/-- The source's `self.INDENT` (log_calls.py line 370). -/
def INDENT : Nat := 4

/-- Python `' [%d]' % n` (line 936). -/
def callNumSuffix (n : Nat) : PyStr :=
  (" [" ++ toString n ++ "]").toList

/-- String content of a resolved `prefix` setting (line 913 concatenates
it with `f.__name__`; a non-string would raise there — unreachable for
the registered `prefix` descriptor, whose values are strings). -/
def pyStrVal : PyVal → PyStr
  | .str s => s
  | _ => []

/-- The control flow of `f_log_calls_wrapper_` (log_calls.py lines
862-1084), over the state and settings the claims concern.

Inputs that stand for the call's environment: `kwargs`/`fparams` (the
call's keyword arguments and the signature), `fname` (`f.__name__`),
`prev_indent_level` (from `call_chain_to_next_log_calls_fn`, the
frame-walking part that is explicitly not reproduced structurally),
`logging_fn` (the result of `get_logging_fn`, an opaque token),
`f_result` (what `f(*args, **kwargs)` does: return a value or raise),
and the registered pre- and post-call handler lists with their behaviors.

The flow mirrors the source: resolve `enabled`; if negative, call `f`
and return immediately ("true bypass", lines 888-890); else bump the
counters (line 894), resolve `log_call_numbers`/`indent`/`prefix`, push
the logging state (line 945); if not enabled, call `f`, pop, return
(lines 949-952); else run pre-call handlers, call `f`, run post-call
handlers, pop, return (lines 1020-1084). An exception anywhere
propagates from that point — the source has no try/finally, so the pops
at lines 951 and 1070 are only reached on normal returns. -/
def f_log_calls_wrapper_ (csd : SettingsDict) (tvd : OD) (kwargs : PyDict)
    (fparams : FParams) (fname : PyStr) (prev_indent_level : Int)
    (logging_fn : Option Nat)
    (pre_handlers post_handlers : List (PyStr × HandlerBehavior))
    (f_result : Except Nat PyVal) (st : DecoState) : WrapperResult :=
  resolveOr csd tvd kwargs fparams ("enabled".toList) st (fun _enabled =>
    if pyLt0 _enabled then
      ⟨f_result.mapError Exn.user, st, 0, 0⟩
    else
      let st1 := _add_call st (pyTruthy _enabled)
      resolveOr csd tvd kwargs fparams ("log_call_numbers".toList) st1
        (fun _log_call_numbers =>
        let _active_call_number :=
          if pyTruthy _log_call_numbers then st1.num_calls_logged else 0
        resolveOr csd tvd kwargs fparams ("indent".toList) st1 (fun do_indent =>
          let _extra_indent_level := prev_indent_level +
            (if pyTruthy do_indent && pyTruthy _enabled then 1 else 0)
          resolveOr csd tvd kwargs fparams ("prefix".toList) st1 (fun pfx =>
            let prefixed_fname := pyStrVal pfx ++ fname
            let global_indent_len := (max _extra_indent_level 0).toNat * INDENT
            let output_fname := prefixed_fname ++
              (if pyTruthy _log_call_numbers
               then callNumSuffix _active_call_number else [])
            let st2 := _logging_state_push st1 logging_fn global_indent_len
              output_fname
            if !pyTruthy _enabled then
              match f_result with
              | .error e => ⟨.error (.user e), st2, 0, 0⟩
              | .ok v => ⟨.ok v, _logging_state_pop st2, 0, 0⟩
            else
              match runHandlers csd tvd kwargs fparams pre_handlers with
              | (nPre, some e) => ⟨.error e, st2, nPre, 0⟩
              | (nPre, Option.none) =>
                match f_result with
                | .error e => ⟨.error (.user e), st2, nPre, 0⟩
                | .ok retval =>
                  match runHandlers csd tvd kwargs fparams post_handlers with
                  | (nPost, some e) => ⟨.error e, st2, nPre, nPost⟩
                  | (nPost, Option.none) =>
                    ⟨.ok retval, _logging_state_pop st2, nPre, nPost⟩))))

/-- One call as the counters/history see it (wrapper line 894 and the
`record_history` post-call handler, lines 244-263): bump the counters;
when the call is logged and history recording is on, append its record. -/
def doCall (st : DecoState) (logged recording : Bool) (rv : PyVal) : DecoState :=
  let st1 := _add_call st logged
  if logged && recording then _add_to_history st1 rv else st1

/-- A sequence of calls, threaded through the state. -/
def runCalls (st : DecoState) : List (Bool × Bool × PyVal) → DecoState
  | [] => st
  | (logged, recording, rv) :: rest => runCalls (doCall st logged recording rv) rest

/-- The depths of the three parallel logging-state stacks — the
observation the stack-balance claims are about. -/
def stackDepths (st : DecoState) : Nat × Nat × Nat :=
  (st.logging_fn.length, st.indent_len.length, st.output_fname.length)

/-- The history invariant maintained between two clears: the call
numbers of the records in the history are strictly increasing, and each
is 1-based and bounded by the logged-calls counter. -/
def histInv (st : DecoState) : Prop :=
  ((st.call_history.map CallRecord.call_num).Pairwise (· < ·)) ∧
  ∀ r ∈ st.call_history, 1 ≤ r.call_num ∧ r.call_num ≤ st.num_calls_logged

/-- Written from the words of the spec (§4.2 `resolve`, claim C1), not
from the source: search the dicts in order for one containing the
reference name and use its value; else the default of the signature
parameter of that name, when one with a default exists; else the
descriptor's default. -/
def resolve_raw_spec (info : DecoSetting) (dicts : List PyDict)
    (fparams : FParams) (r : PyStr) : PyVal :=
  match dicts.find? (fun d => (assocFind d r).isSome) with
  | some d => (assocFind d r).getD info.default
  | Option.none =>
    match assocFind fparams r with
    | some (some dflt) => dflt
    | _ => info.default

/-- Written from the words of the spec (§4.2 `resolve` final fixup, claim
C1): a falsy value with falsy disallowed, or a value failing the type
predicate, is replaced by the default. -/
def fixup_spec (info : DecoSetting) (v : PyVal) : PyVal :=
  if (!pyTruthy v && !info.allow_falsy) || !pyIsinst v info.final_type then
    info.default
  else v

/-- Written from the words of the spec/claim C1: a direct entry resolves
to its stored value; an indirect entry resolves to the fixup of the raw
resolution of its reference name. (A non-string indirect value — which
`__setitem__` never stores — names nothing, so it resolves to the fixup
of the default, as in the source.) -/
def get_final_value_spec (csd : SettingsDict) (tvd : OD) (name : PyStr)
    (dicts : List PyDict) (fparams : FParams) : Option PyVal :=
  match assocFind tvd name with
  | Option.none => Option.none
  | some (false, stored) => some stored
  | some (true, stored) =>
    match lookupSetting csd name with
    | Option.none => Option.none
    | some info =>
      match stored with
      | .str r => some (fixup_spec info (resolve_raw_spec info dicts fparams r))
      | _ => some (fixup_spec info info.default)

/-- The `log_calls` class settings (log_calls.py lines 1300-1319), minus
the `file` and `logger` settings whose final types (streams, loggers) lie
outside the value universe (no claim concerns them). `enabled` is
`DecoSettingEnabled` (line 123-125: `int`, default `False`, falsy
allowed); booleans per their `DecoSetting_bool` lines; `prefix` and
`max_history` disallow indirection and are immutable; `loglevel` defaults
to `logging.DEBUG = 10`. -/
def log_calls_settings : SettingsDict :=
  [ ⟨"enabled".toList, .int, .bool false, true, true, true⟩,
    ⟨"args_sep".toList, .str, .str (", ".toList), false, true, true⟩,
    ⟨"log_args".toList, .bool, .bool true, true, true, true⟩,
    ⟨"log_retval".toList, .bool, .bool false, true, true, true⟩,
    ⟨"log_elapsed".toList, .bool, .bool false, true, true, true⟩,
    ⟨"log_exit".toList, .bool, .bool true, true, true, true⟩,
    ⟨"indent".toList, .bool, .bool false, true, true, true⟩,
    ⟨"log_call_numbers".toList, .bool, .bool false, true, true, true⟩,
    ⟨"prefix".toList, .str, .str [], true, false, false⟩,
    ⟨"loglevel".toList, .int, .int 10, false, true, true⟩,
    ⟨"record_history".toList, .bool, .bool false, true, true, true⟩,
    ⟨"max_history".toList, .int, .int 0, true, false, false⟩ ]

/-! ## Helper lemmas -/

theorem assocFind_odSet_self {α : Type} (l : List (PyStr × α)) (k : PyStr) (a : α) :
    assocFind (odSet l k a) k = some a := by
  induction l with
  | nil => simp [odSet, assocFind]
  | cons hd tl ih =>
    obtain ⟨k', b⟩ := hd
    by_cases h : k' = k
    · simp [odSet, h, assocFind]
    · simp [odSet, h, assocFind, ih]

theorem assocFind_odSet_ne {α : Type} (l : List (PyStr × α)) (k k' : PyStr) (a : α)
    (h : k' ≠ k) : assocFind (odSet l k a) k' = assocFind l k' := by
  have h' : k ≠ k' := Ne.symm h
  induction l with
  | nil => simp [odSet, assocFind, h']
  | cons hd tl ih =>
    obtain ⟨k0, b⟩ := hd
    by_cases h0 : k0 = k
    · subst h0
      simp [odSet, assocFind, h']
    · simp only [odSet, if_neg h0]
      by_cases h1 : k0 = k'
      · simp [assocFind, h1]
      · simp [assocFind, h1, ih]

theorem assocFind_mem {α : Type} {l : List (PyStr × α)} {k : PyStr} {a : α}
    (h : assocFind l k = some a) : (k, a) ∈ l := by
  induction l with
  | nil => simp [assocFind] at h
  | cons hd tl ih =>
    obtain ⟨k0, b⟩ := hd
    by_cases h0 : k0 = k
    · subst h0
      simp [assocFind] at h
      simp [h]
    · simp only [assocFind, if_neg h0] at h
      exact List.mem_cons_of_mem _ (ih h)

theorem findInDicts_spec (r : PyStr) (dicts : List PyDict) :
    findInDicts dicts (.str r)
      = (dicts.find? (fun d => (assocFind d r).isSome)).bind (fun d => assocFind d r) := by
  induction dicts with
  | nil => rfl
  | cons d rest ih =>
    simp only [findInDicts] at ih ⊢
    cases h : assocFind d r with
    | none =>
      rw [List.findSome?_cons]
      simp [h, List.find?_cons, ih]
    | some v =>
      rw [List.findSome?_cons]
      simp [h, List.find?_cons]

/-! ## Claims -/

/-- C1. For every setting stored as an indirect tagged value with
reference name `r`, `get_final_value` searches the given dicts in order
and uses the value of the first dict containing key `r`; if no dict
contains `r`, it uses the default of the wrapped function's keyword
parameter named `r` when such a parameter with a default exists, and
otherwise the descriptor's default; finally, if the value so obtained is
falsy while the descriptor disallows falsy values, or is not an instance
of the descriptor's final type, the descriptor's default is returned
instead — even when the value came from one of the dicts. For a direct
tagged value, the stored value is returned. (Stated as: the source
resolution equals the spec-worded resolution `get_final_value_spec`,
for all inputs.) -/
theorem C1_get_final_value_refines_spec (csd : SettingsDict) (tvd : OD) (name : PyStr)
    (dicts : List PyDict) (fparams : FParams) :
    get_final_value csd tvd name dicts fparams
      = get_final_value_spec csd tvd name dicts fparams := by
  unfold get_final_value get_final_value_spec
  cases h : assocFind tvd name with
  | none => rfl
  | some tg =>
    obtain ⟨ind, v⟩ := tg
    cases ind with
    | false => rfl
    | true =>
      cases hinfo : lookupSetting csd name with
      | none => rfl
      | some info =>
        cases v with
        | str r =>
          dsimp only
          rw [findInDicts_spec]
          cases hf : List.find? (fun d => (assocFind d r).isSome) dicts with
          | some d =>
            have hpred : (assocFind d r).isSome = true := by
              simpa using List.find?_some hf
            obtain ⟨w, hw⟩ := Option.isSome_iff_exists.mp hpred
            simp [hf, hw, resolve_raw_spec, fixup_spec]
          | none =>
            cases hp : assocFind fparams r with
            | none =>
              simp [hf, hp, resolve_raw_spec, fixup_spec, fparamsGetDefault]
            | some o =>
              cases o <;>
                simp [hf, hp, resolve_raw_spec, fixup_spec, fparamsGetDefault]
        | none => simp [fixup_spec, fparamsGetDefault, findInDicts]
        | bool b => simp [fixup_spec, fparamsGetDefault, findInDicts]
        | int n => simp [fixup_spec, fparamsGetDefault, findInDicts]

/-- C2, code bug. The claim says: for a setting with
`allowFalsy = false` and default `D`, setting a direct falsy value and
then resolving always yields `D`. The code fails this: `__setitem__`
(deco_settings.py line 224) reads `allow_falsy = info.default` instead of
`info.allow_falsy`, so for `args_sep` (final type `str`, default `", "`,
`allow_falsy = False`) a direct empty string passes the falsy check
(the default `", "` is truthy) and the type check (`''` is a `str`), is
stored unchanged, and — `get_final_value` applying no fixup to direct
entries — resolves to `''`, not to the default `", "`. -/
theorem C2_falsy_direct_not_defaulted :
    setitem log_calls_settings [] ("args_sep".toList) (.str []) false
        = .ok [("args_sep".toList, (false, .str []))]
      ∧ get_final_value log_calls_settings [("args_sep".toList, (false, .str []))]
          ("args_sep".toList) [] [] = some (.str [])
      ∧ PyVal.str [] ≠ PyVal.str (", ".toList) := by decide

/-- C4. For every call in which the setting `enabled` resolves to a
negative value, the wrapper immediately calls the wrapped function and
returns its outcome unchanged, with the state untouched (both counters
unchanged, no history record appended, stacks unchanged) and zero pre- or
post-call handler invocations. -/
theorem C4_negative_enabled_bypass (csd : SettingsDict) (tvd : OD) (kwargs : PyDict)
    (fparams : FParams) (fname : PyStr) (prev_indent_level : Int)
    (logging_fn : Option Nat)
    (pre_handlers post_handlers : List (PyStr × HandlerBehavior))
    (f_result : Except Nat PyVal) (st : DecoState) (ev : PyVal)
    (hev : get_final_value csd tvd ("enabled".toList) [kwargs] fparams = some ev)
    (hneg : pyLt0 ev = true) :
    f_log_calls_wrapper_ csd tvd kwargs fparams fname prev_indent_level logging_fn
        pre_handlers post_handlers f_result st
      = ⟨f_result.mapError Exn.user, st, 0, 0⟩ := by
  unfold f_log_calls_wrapper_ resolveOr
  rw [hev]
  simp [hneg]

/-- Witness for C4: with `enabled` stored directly as `-1`, a call whose
wrapped function returns `42` is returned unchanged with the state as
constructed and no handler invoked. -/
theorem C4_negative_enabled_bypass_witness :
    f_log_calls_wrapper_ log_calls_settings
        [("enabled".toList, (false, PyVal.int (-1)))] [] [] [] 0 Option.none
        [("log_args".toList, .ok Option.none)] []
        (.ok (.int 42)) (initState 0)
      = ⟨.ok (.int 42), initState 0, 0, 0⟩ :=
  C4_negative_enabled_bypass log_calls_settings
    [("enabled".toList, (false, PyVal.int (-1)))] [] [] [] 0 Option.none
    [("log_args".toList, .ok Option.none)] [] (.ok (.int 42)) (initState 0)
    (PyVal.int (-1)) (by decide) (by decide)

/-- C3, counterexample. The claim says the stacks pushed on entry are
popped on every exit path, exceptions included. They are not: with
`enabled` resolving truthy and the wrapped function raising, the wrapper
(which has no try/finally) propagates the exception from line 1042 of
log_calls.py without reaching the pop at line 1070, leaving all three
stacks one entry deeper than the pre-call depth 0. -/
theorem C3_counterexample :
    (f_log_calls_wrapper_ log_calls_settings
        [("enabled".toList, (false, PyVal.bool true)),
         ("log_call_numbers".toList, (false, PyVal.bool false)),
         ("indent".toList, (false, PyVal.bool false)),
         ("prefix".toList, (false, PyVal.str []))]
        [] [] ("f".toList) 0 Option.none [] []
        (.error 7) (initState 0)).result = .error (.user 7)
    ∧ stackDepths (f_log_calls_wrapper_ log_calls_settings
        [("enabled".toList, (false, PyVal.bool true)),
         ("log_call_numbers".toList, (false, PyVal.bool false)),
         ("indent".toList, (false, PyVal.bool false)),
         ("prefix".toList, (false, PyVal.str []))]
        [] [] ("f".toList) 0 Option.none [] []
        (.error 7) (initState 0)).state = (1, 1, 1)
    ∧ stackDepths (initState 0) = (0, 0, 0) := by decide

/-- C3, amended. On a non-bypassed call (`enabled` resolves to an
int-like, non-negative value), the wrapper pops the logging-state stacks
it pushed on entry only on the normal-return exit paths: a normal return
leaves all three stacks at their pre-call depth, while an exception
raised by the wrapped function or by a pre- or post-call handler
propagates without the pop, leaving each stack one entry deeper than
before the call. -/
theorem C3_pops_only_on_normal_return
    (csd : SettingsDict) (tvd : OD) (kwargs : PyDict) (fparams : FParams)
    (fname : PyStr) (prev_indent_level : Int) (logging_fn : Option Nat)
    (pre_handlers post_handlers : List (PyStr × HandlerBehavior))
    (f_result : Except Nat PyVal) (st : DecoState) (ev : PyVal)
    (hev : get_final_value csd tvd ("enabled".toList) [kwargs] fparams = some ev)
    (_hint : pyIsIntLike ev = true)
    (hnb : pyLt0 ev = false) :
    (∀ v, (f_log_calls_wrapper_ csd tvd kwargs fparams fname prev_indent_level
            logging_fn pre_handlers post_handlers f_result st).result = .ok v →
        stackDepths (f_log_calls_wrapper_ csd tvd kwargs fparams fname
            prev_indent_level logging_fn pre_handlers post_handlers f_result
            st).state = stackDepths st)
    ∧ (∀ e, (f_log_calls_wrapper_ csd tvd kwargs fparams fname prev_indent_level
            logging_fn pre_handlers post_handlers f_result st).result
              = .error (.user e) →
        stackDepths (f_log_calls_wrapper_ csd tvd kwargs fparams fname
            prev_indent_level logging_fn pre_handlers post_handlers f_result
            st).state
          = (st.logging_fn.length + 1, st.indent_len.length + 1,
             st.output_fname.length + 1)) := by
  unfold f_log_calls_wrapper_ resolveOr
  rw [hev]
  dsimp only
  rw [if_neg (by simp [hnb])]
  cases h1 : get_final_value csd tvd ("log_call_numbers".toList) [kwargs] fparams with
  | none => exact ⟨fun v hv => by simp at hv, fun e he => by simp at he⟩
  | some lcn =>
    cases h2 : get_final_value csd tvd ("indent".toList) [kwargs] fparams with
    | none => exact ⟨fun v hv => by simp at hv, fun e he => by simp at he⟩
    | some ind =>
      cases h3 : get_final_value csd tvd ("prefix".toList) [kwargs] fparams with
      | none => exact ⟨fun v hv => by simp at hv, fun e he => by simp at he⟩
      | some pfx =>
        cases hT : pyTruthy ev with
        | false =>
          cases f_result with
          | error e => exact ⟨fun v hv => by simp at hv, fun e' _ => rfl⟩
          | ok v => exact ⟨fun v' _ => rfl, fun e' he' => by simp at he'⟩
        | true =>
          cases hpre : runHandlers csd tvd kwargs fparams pre_handlers with
          | mk nPre opt =>
            cases opt with
            | some e =>
              exact ⟨fun v hv => by simp at hv, fun e' _ => rfl⟩
            | none =>
              cases f_result with
              | error e => exact ⟨fun v hv => by simp at hv, fun e' _ => rfl⟩
              | ok v =>
                cases hpost : runHandlers csd tvd kwargs fparams post_handlers with
                | mk nPost opt2 =>
                  cases opt2 with
                  | some e => exact ⟨fun v' hv => by simp at hv, fun e' _ => rfl⟩
                  | none => exact ⟨fun v' _ => rfl, fun e' he' => by simp at he'⟩

/-- Witness for the amended C3: concrete non-bypassed call whose wrapped
function raises; the stacks end one deeper than the (empty) pre-call
stacks. -/
theorem C3_pops_only_on_normal_return_witness :
    stackDepths (f_log_calls_wrapper_ log_calls_settings
        [("enabled".toList, (false, PyVal.bool true)),
         ("log_call_numbers".toList, (false, PyVal.bool false)),
         ("indent".toList, (false, PyVal.bool false)),
         ("prefix".toList, (false, PyVal.str []))]
        [] [] ("g".toList) 0 Option.none [] []
        (.error 3) (initState 0)).state
      = ((initState 0).logging_fn.length + 1, (initState 0).indent_len.length + 1,
         (initState 0).output_fname.length + 1) :=
  (C3_pops_only_on_normal_return log_calls_settings
      [("enabled".toList, (false, PyVal.bool true)),
       ("log_call_numbers".toList, (false, PyVal.bool false)),
       ("indent".toList, (false, PyVal.bool false)),
       ("prefix".toList, (false, PyVal.str []))]
      [] [] ("g".toList) 0 Option.none [] []
      (.error 3) (initState 0) (PyVal.bool true)
      (by decide) (by decide) (by decide)).2 3 (by decide)

set_option maxHeartbeats 1000000 in
/-- C5. With `max_history = 3` and history recording enabled, after 5
logged calls the call history contains exactly the last 3 records, in
their original relative order, and `num_calls_total = 5`; and in general
a bounded history never holds more than `maxlen` records. -/
theorem C5_history_bound :
    (∀ v1 v2 v3 v4 v5 : PyVal,
      runCalls (initState 3)
          [(true, true, v1), (true, true, v2), (true, true, v3),
           (true, true, v4), (true, true, v5)]
        = { num_calls_total := 5, num_calls_logged := 5, max_history := 3,
            call_history := [⟨3, v3⟩, ⟨4, v4⟩, ⟨5, v5⟩],
            logging_fn := [], indent_len := [], output_fname := [] })
    ∧ (∀ (m : Nat) (h : List CallRecord) (r : CallRecord),
        (dequeAppend (some m) h r).length ≤ m) := by
  refine ⟨fun v1 v2 v3 v4 v5 => rfl, fun m h r => ?_⟩
  simp only [dequeAppend, List.length_drop]
  omega

theorem histInv_add_call (st : DecoState) (b : Bool) (h : histInv st) :
    histInv (_add_call st b) := by
  obtain ⟨hpw, hmem⟩ := h
  refine ⟨hpw, fun r hr => ?_⟩
  obtain ⟨h1, h2⟩ := hmem r hr
  refine ⟨h1, h2.trans ?_⟩
  unfold _add_call
  cases b <;> simp

theorem histInv_doCall (st : DecoState) (logged recording : Bool) (rv : PyVal)
    (h : histInv st) : histInv (doCall st logged recording rv) := by
  unfold doCall
  cases hl : logged && recording with
  | false => simpa using histInv_add_call st logged h
  | true =>
    rw [if_pos rfl]
    cases logged with
    | false => exact absurd hl (by simp)
    | true =>
      obtain ⟨hpw0, hmem0⟩ := h
      have hpw2 : ((st.call_history
          ++ [CallRecord.mk (st.num_calls_logged + 1) rv]).map
            CallRecord.call_num).Pairwise (· < ·) := by
        rw [List.map_append, List.pairwise_append]
        refine ⟨hpw0, List.pairwise_singleton _ _, ?_⟩
        intro a ha b hb
        simp only [List.map_cons, List.map_nil, List.mem_singleton] at hb
        subst hb
        obtain ⟨r, hr, hrx⟩ := List.mem_map.mp ha
        have h2 := (hmem0 r hr).2
        omega
      have hhist : (_add_to_history (_add_call st true) rv).call_history
          = dequeAppend (_make_call_history st.max_history) st.call_history
              (CallRecord.mk (st.num_calls_logged + 1) rv) := rfl
      have hnew : (_add_to_history (_add_call st true) rv).num_calls_logged
          = st.num_calls_logged + 1 := rfl
      constructor
      · rw [hhist]
        cases _make_call_history st.max_history with
        | none => simpa [dequeAppend] using hpw2
        | some m =>
          simp only [dequeAppend]
          exact hpw2.sublist ((List.drop_sublist _ _).map _)
      · intro r hr
        rw [hhist] at hr
        have hmem2 : r ∈ st.call_history
            ++ [CallRecord.mk (st.num_calls_logged + 1) rv] := by
          revert hr
          cases _make_call_history st.max_history with
          | none =>
            intro hr
            simpa [dequeAppend] using hr
          | some m =>
            intro hr
            simp only [dequeAppend] at hr
            exact List.mem_of_mem_drop hr
        rw [hnew]
        rcases List.mem_append.mp hmem2 with hold | hnewr
        · obtain ⟨h1, h2⟩ := hmem0 r hold
          exact ⟨h1, by omega⟩
        · simp only [List.mem_singleton] at hnewr
          subst hnewr
          refine ⟨?_, ?_⟩
          · show 1 ≤ st.num_calls_logged + 1
            omega
          · show st.num_calls_logged + 1 ≤ st.num_calls_logged + 1
            omega

theorem histInv_runCalls (steps : List (Bool × Bool × PyVal)) :
    ∀ st : DecoState, histInv st → histInv (runCalls st steps) := by
  induction steps with
  | nil => exact fun st h => h
  | cons s rest ih =>
    intro st h
    obtain ⟨logged, recording, rv⟩ := s
    exact ih _ (histInv_doCall st logged recording rv h)

/-- C10. Starting from a cleared state, every sequence of calls
leaves a history whose records carry strictly increasing call numbers,
each 1-based and bounded by the logged-calls counter — because
`_add_to_history` stamps each record with `_num_calls_logged` as it
stands after `_add_call` bumped it. -/
theorem C10_call_numbers_strictly_increasing (mh : Int)
    (steps : List (Bool × Bool × PyVal)) :
    (((runCalls (initState mh) steps).call_history.map CallRecord.call_num).Pairwise
        (· < ·))
    ∧ ∀ r ∈ (runCalls (initState mh) steps).call_history,
        1 ≤ r.call_num ∧ r.call_num ≤ (runCalls (initState mh) steps).num_calls_logged :=
  histInv_runCalls steps (initState mh) ⟨by simp [initState], by simp [initState]⟩

/-- Witness for C10: after one logged, recorded call the single record in
the history has the 1-based call number 1, which is the logged-calls
counter. -/
theorem C10_call_numbers_witness :
    1 ≤ (CallRecord.mk 1 (PyVal.int 9)).call_num
    ∧ (CallRecord.mk 1 (PyVal.int 9)).call_num
        ≤ (runCalls (initState 0) [(true, true, PyVal.int 9)]).num_calls_logged :=
  (C10_call_numbers_strictly_increasing 0 [(true, true, PyVal.int 9)]).2
    ⟨1, PyVal.int 9⟩ (by decide)

theorem setitem_ok_of_mutable (csd : SettingsDict) (tvd : OD) (k : PyStr)
    (v : PyVal) (info : DecoSetting) (hinfo : lookupSetting csd k = some info)
    (hmut : info.mutable = true) :
    setitem csd tvd k v false = .ok (odSet tvd k (setitemPair info v)) := by
  unfold setitem
  rw [hinfo]
  dsimp only
  rw [if_neg (by simp [hmut])]

/-- C6. For a string-typed setting that allows indirection (and whose
key is writable), `set(key, "name=")` stores the indirect reference
`name`; a subsequent `get(key)` returns exactly `"name="` (the stored
reference with the marker re-appended); and resolving the setting against
an argument source mapping `name` to a valid value `v` (right type,
truthy or falsy-allowed) yields `v`. -/
theorem C6_indirection_marker_round_trip (csd : SettingsDict) (tvd : OD)
    (key nm : PyStr) (info : DecoSetting) (d : PyDict) (v : PyVal)
    (fparams : FParams)
    (hinfo : lookupSetting csd key = some info)
    (hty : info.final_type = PyType.str)
    (hind : info.allow_indirect = true)
    (hwrite : info.mutable = true ∨ assocFind tvd key = Option.none) :
    setitem csd tvd key (.str (nm ++ ['='])) false
        = .ok (odSet tvd key (true, .str nm))
    ∧ getitem (odSet tvd key (true, .str nm)) key = some (.str (nm ++ ['=']))
    ∧ (assocFind d nm = some v → pyIsinst v PyType.str = true →
       (pyTruthy v = true ∨ info.allow_falsy = true) →
       get_final_value csd (odSet tvd key (true, .str nm)) key [d] fparams
         = some v) := by
  refine ⟨?_, ?_, ?_⟩
  · have hpair : setitemPair info (.str (nm ++ ['='])) = (true, .str nm) := by
      unfold setitemPair classifyTagged
      rw [if_neg (by simp [hind])]
      dsimp only
      rw [if_neg (by simp)]
      rw [if_neg (by simp [hty])]
      rw [if_pos (List.getLast?_concat nm)]
      rw [List.dropLast_concat]
    rw [← hpair]
    unfold setitem
    rw [hinfo]
    dsimp only
    rw [if_neg]
    rcases hwrite with hmut | habs
    · simp [hmut]
    · simp [habs]
  · unfold getitem
    rw [assocFind_odSet_self]
    rfl
  · intro hd htyv hfal
    unfold get_final_value
    rw [assocFind_odSet_self]
    dsimp only
    rw [if_neg (by decide)]
    rw [hinfo]
    dsimp only
    have hfind : findInDicts [d] (.str nm) = some v := by
      simp [findInDicts, List.findSome?_cons, hd]
    rw [hfind]
    dsimp only
    rw [if_neg (by
      rw [hty, htyv]
      rcases hfal with hv | hf
      · simp [hv]
      · simp [hf])]

/-- Witness for C6: `args_sep` set to `"sep="`, read back as `"sep="`,
and resolved to `" / "` from a source binding `sep` to `" / "`. -/
theorem C6_indirection_marker_round_trip_witness :
    setitem log_calls_settings [] ("args_sep".toList) (.str ("sep=".toList)) false
        = .ok [("args_sep".toList, ((true : Bool), PyVal.str ("sep".toList)))]
    ∧ getitem [("args_sep".toList, ((true : Bool), PyVal.str ("sep".toList)))]
        ("args_sep".toList) = some (.str ("sep=".toList))
    ∧ get_final_value log_calls_settings
        [("args_sep".toList, ((true : Bool), PyVal.str ("sep".toList)))]
        ("args_sep".toList) [[("sep".toList, PyVal.str (" / ".toList))]] []
        = some (PyVal.str (" / ".toList)) := by
  have h := C6_indirection_marker_round_trip log_calls_settings []
      ("args_sep".toList) ("sep".toList)
      ⟨"args_sep".toList, .str, .str (", ".toList), false, true, true⟩
      [("sep".toList, PyVal.str (" / ".toList))] (PyVal.str (" / ".toList)) []
      (by decide) (by decide) (by decide) (Or.inl (by decide))
  exact ⟨h.1, h.2.1, h.2.2 (by decide) (by decide) (Or.inl (by decide))⟩

/-- C7. Writing an already-set immutable setting without the
force-mutable override raises the write-once `ValueError` (the spec's
`SettingIsImmutable`). The check fires before any store, so no modified
mapping is produced — in this pure embedding the `.error` result carries
no new mapping, and the stored tagged value for the key is still `X`. -/
theorem C7_immutable_write_raises (csd : SettingsDict) (tvd : OD) (key : PyStr)
    (info : DecoSetting) (X : TaggedValue) (Y : PyVal)
    (hinfo : lookupSetting csd key = some info)
    (hmut : info.mutable = false)
    (hset : assocFind tvd key = some X) :
    setitem csd tvd key Y false = .error .SettingIsImmutable
    ∧ assocFind tvd key = some X := by
  refine ⟨?_, hset⟩
  unfold setitem
  rw [hinfo]
  dsimp only
  rw [if_pos (by simp [hmut, hset])]

/-- Witness for C7: overwriting the immutable `prefix` setting, already
set to `"p"`, raises, and the stored pair is untouched. -/
theorem C7_immutable_write_raises_witness :
    setitem log_calls_settings
        [("prefix".toList, ((false : Bool), PyVal.str ['p']))]
        ("prefix".toList) (PyVal.str []) false = .error .SettingIsImmutable
    ∧ assocFind [("prefix".toList, ((false : Bool), PyVal.str ['p']))]
        ("prefix".toList) = some ((false : Bool), PyVal.str ['p']) :=
  C7_immutable_write_raises log_calls_settings
    [("prefix".toList, ((false : Bool), PyVal.str ['p']))] ("prefix".toList)
    ⟨"prefix".toList, .str, .str [], true, false, false⟩
    ((false : Bool), PyVal.str ['p']) (PyVal.str [])
    (by decide) (by decide) (by decide)

/-- C8. `update` on a source dict holding both an already-set
immutable key (with a new value `Y`) and a mutable key (with `Z`) raises
nothing: the immutable key is skipped, so the whole update equals the
single `set` of the mutable key — the immutable key's stored value stays
at its prior `X`, and the mutable key is stored as `set(kM, Z)` stores
it. -/
theorem C8_update_skips_immutable (csd : SettingsDict) (tvd : OD)
    (kI kM : PyStr) (infoI infoM : DecoSetting) (X : TaggedValue) (Y Z : PyVal)
    (hiI : lookupSetting csd kI = some infoI)
    (hiM : lookupSetting csd kM = some infoM)
    (hmI : infoI.mutable = false)
    (hmM : infoM.mutable = true)
    (hX : assocFind tvd kI = some X) :
    update csd tvd [[(kI, Y), (kM, Z)]]
        = .ok (odSet tvd kM (setitemPair infoM Z))
    ∧ assocFind (odSet tvd kM (setitemPair infoM Z)) kI = some X := by
  have hne : kI ≠ kM := by
    intro hcontra
    subst hcontra
    rw [hiI] at hiM
    have heq := Option.some.inj hiM
    rw [← heq, hmI] at hmM
    exact Bool.noConfusion hmM
  constructor
  · simp only [update, updatePairs, hiI, hiM, hmI, hmM]
    rw [setitem_ok_of_mutable csd tvd kM Z infoM hiM hmM]
    rfl
  · rw [assocFind_odSet_ne _ _ _ _ hne]
    exact hX

/-- Witness for C8: updating with both the immutable `prefix` (set to
`"p"`) and the mutable `args_sep`: no error, `prefix` keeps `"p"`,
`args_sep` becomes the direct literal `"-"`. -/
theorem C8_update_skips_immutable_witness :
    update log_calls_settings [("prefix".toList, ((false : Bool), PyVal.str ['p']))]
        [[("prefix".toList, PyVal.str ['q']), ("args_sep".toList, PyVal.str ['-'])]]
        = .ok [("prefix".toList, ((false : Bool), PyVal.str ['p'])),
               ("args_sep".toList, ((false : Bool), PyVal.str ['-']))]
    ∧ assocFind [("prefix".toList, ((false : Bool), PyVal.str ['p'])),
                 ("args_sep".toList, ((false : Bool), PyVal.str ['-']))]
        ("prefix".toList) = some ((false : Bool), PyVal.str ['p']) := by
  have h := C8_update_skips_immutable log_calls_settings
      [("prefix".toList, ((false : Bool), PyVal.str ['p']))]
      ("prefix".toList) ("args_sep".toList)
      ⟨"prefix".toList, .str, .str [], true, false, false⟩
      ⟨"args_sep".toList, .str, .str (", ".toList), false, true, true⟩
      ((false : Bool), PyVal.str ['p']) (PyVal.str ['q']) (PyVal.str ['-'])
      (by decide) (by decide) (by decide) (by decide) (by decide)
  exact ⟨h.1.trans (by decide), h.2.trans (by decide)⟩

theorem setitem_ok_shape (csd : SettingsDict) (tvd : OD) (k : PyStr) (v : PyVal)
    (fm : Bool) (tvd' : OD) (h : setitem csd tvd k v fm = .ok tvd') :
    ∃ p, tvd' = odSet tvd k p := by
  unfold setitem at h
  cases hl : lookupSetting csd k with
  | none => rw [hl] at h; exact absurd h (by simp)
  | some info =>
    rw [hl] at h
    dsimp only at h
    by_cases hc : (!info.mutable && !fm && (assocFind tvd k).isSome) = true
    · rw [if_pos hc] at h; exact absurd h (by simp)
    · rw [if_neg hc] at h
      injection h with h2
      exact ⟨_, h2.symm⟩

theorem updatePairs_assocFind_not_mem (csd : SettingsDict) (k : PyStr) :
    ∀ (pairs : PyDict) (tvd tvd' : OD), k ∉ pairs.map Prod.fst →
      updatePairs csd tvd pairs = .ok tvd' →
      assocFind tvd' k = assocFind tvd k := by
  intro pairs
  induction pairs with
  | nil =>
    intro tvd tvd' _ h
    simp only [updatePairs] at h
    injection h with h2
    rw [← h2]
  | cons p rest ih =>
    intro tvd tvd' hmem h
    obtain ⟨k0, v0⟩ := p
    simp only [List.map_cons, List.mem_cons, not_or] at hmem
    obtain ⟨hk0, hrest⟩ := hmem
    simp only [updatePairs] at h
    cases hl : lookupSetting csd k0 with
    | some info0 =>
      rw [hl] at h
      dsimp only at h
      cases hm0 : info0.mutable with
      | false =>
        rw [if_pos (by simp [hm0])] at h
        exact ih tvd tvd' hrest h
      | true =>
        rw [if_neg (by simp [hm0])] at h
        cases hs : setitem csd tvd k0 v0 false with
        | error e => rw [hs] at h; exact absurd h (by simp)
        | ok t1 =>
          rw [hs] at h
          obtain ⟨p0, hp0⟩ := setitem_ok_shape csd tvd k0 v0 false t1 hs
          rw [ih t1 tvd' hrest h, hp0]
          exact assocFind_odSet_ne tvd k0 k p0 hk0
    | none =>
      rw [hl] at h
      dsimp only at h
      cases hs : setitem csd tvd k0 v0 false with
      | error e => rw [hs] at h; exact absurd h (by simp)
      | ok t1 =>
        rw [hs] at h
        obtain ⟨p0, hp0⟩ := setitem_ok_shape csd tvd k0 v0 false t1 hs
        rw [ih t1 tvd' hrest h, hp0]
        exact assocFind_odSet_ne tvd k0 k p0 hk0

theorem updatePairs_assocFind_of_mem (csd : SettingsDict) (k : PyStr) (v : PyVal)
    (info : DecoSetting) (hinfo : lookupSetting csd k = some info)
    (hmut : info.mutable = true) :
    ∀ (pairs : PyDict) (tvd tvd' : OD), (pairs.map Prod.fst).Nodup →
      (k, v) ∈ pairs →
      updatePairs csd tvd pairs = .ok tvd' →
      assocFind tvd' k = some (setitemPair info v) := by
  intro pairs
  induction pairs with
  | nil => intro tvd tvd' _ hmem; exact absurd hmem (by simp)
  | cons p rest ih =>
    intro tvd tvd' hnd hmem h
    obtain ⟨k0, v0⟩ := p
    simp only [List.map_cons, List.nodup_cons] at hnd
    obtain ⟨hk0notin, hnd'⟩ := hnd
    rcases List.mem_cons.mp hmem with heq | hrest
    · injection heq with hk hv
      subst hk
      subst hv
      simp only [updatePairs] at h
      rw [hinfo] at h
      dsimp only at h
      rw [if_neg (by simp [hmut])] at h
      rw [setitem_ok_of_mutable csd tvd k v info hinfo hmut] at h
      dsimp only at h
      rw [updatePairs_assocFind_not_mem csd k rest _ tvd' hk0notin h]
      exact assocFind_odSet_self tvd k (setitemPair info v)
    · simp only [updatePairs] at h
      cases hl : lookupSetting csd k0 with
      | some info0 =>
        rw [hl] at h
        dsimp only at h
        cases hm0 : info0.mutable with
        | false =>
          rw [if_pos (by simp [hm0])] at h
          exact ih tvd tvd' hnd' hrest h
        | true =>
          rw [if_neg (by simp [hm0])] at h
          cases hs : setitem csd tvd k0 v0 false with
          | error e => rw [hs] at h; exact absurd h (by simp)
          | ok t1 => rw [hs] at h; exact ih t1 tvd' hnd' hrest h
      | none =>
        rw [hl] at h
        dsimp only at h
        cases hs : setitem csd tvd k0 v0 false with
        | error e => rw [hs] at h; exact absurd h (by simp)
        | ok t1 => rw [hs] at h; exact ih t1 tvd' hnd' hrest h

theorem update_single (csd : SettingsDict) (tvd : OD) (d : PyDict) (tvd' : OD)
    (h : update csd tvd [d] = .ok tvd') : updatePairs csd tvd d = .ok tvd' := by
  unfold update at h
  cases hs : updatePairs csd tvd d with
  | error e => rw [hs] at h; exact absurd h (by simp [update])
  | ok t =>
    rw [hs] at h
    simp only [update] at h
    injection h with h2
    rw [h2]

theorem assocFind_as_OrderedDict (tvd : OD) (key : PyStr) :
    assocFind (as_OrderedDict tvd) key = (assocFind tvd key).map Prod.snd := by
  induction tvd with
  | nil => rfl
  | cons hd tl ih =>
    obtain ⟨k0, tg⟩ := hd
    by_cases h : k0 = key
    · simp [as_OrderedDict, assocFind, h]
    · simp only [as_OrderedDict, List.map_cons, assocFind, if_neg h]
      exact ih

theorem as_OrderedDict_keys (tvd : OD) :
    (as_OrderedDict tvd).map Prod.fst = tvd.map Prod.fst := by
  induction tvd with
  | nil => rfl
  | cons hd tl ih =>
    obtain ⟨k0, tg⟩ := hd
    simp only [as_OrderedDict, List.map_cons] at ih ⊢
    simp [ih]

theorem setitemPair_direct_str (info : DecoSetting) (r : PyStr)
    (hty : info.final_type = PyType.str) (hr1 : r ≠ [])
    (hr2 : r.getLast? ≠ some '=') :
    setitemPair info (.str r) = (false, .str r) := by
  unfold setitemPair classifyTagged
  cases hai : info.allow_indirect with
  | false => rfl
  | true =>
    rw [if_neg (by simp)]
    dsimp only
    rw [if_neg (by simp [hr1])]
    rw [if_neg (by simp [hty])]
    rw [if_neg hr2]

/-- C9, amended. For a setting stored as an indirect tagged value
with reference name `r`: `as_OrderedDict` (hence `as_dict`) maps the key
to `r` *without* the trailing marker, while `__getitem__` (hence `items`)
returns `r` with the marker re-appended. Consequently, for a *mutable*
string-typed setting whose reference name is nonempty and does not itself
end in the marker character, restoring the snapshot via `update` stores
the former indirect value as a direct literal string — the round trip
loses the indirectness. (The mutability condition is forced by `update`'s
skip rule, and the marker condition by the counterexample: a reference
name ending in `=` is re-parsed as indirect on restore.) -/
theorem C9_snapshot_restore_loses_indirection :
    (∀ (tvd : OD) (key r : PyStr), assocFind tvd key = some (true, .str r) →
        assocFind (as_OrderedDict tvd) key = some (.str r)
        ∧ getitem tvd key = some (.str (r ++ ['='])))
    ∧ (∀ (csd : SettingsDict) (tvd : OD) (key r : PyStr) (info : DecoSetting),
        (tvd.map Prod.fst).Nodup →
        assocFind tvd key = some (true, .str r) →
        lookupSetting csd key = some info →
        info.final_type = PyType.str →
        info.mutable = true →
        r ≠ [] →
        r.getLast? ≠ some '=' →
        ∀ tvd', update csd tvd [as_OrderedDict tvd] = .ok tvd' →
          assocFind tvd' key = some (false, .str r)) := by
  constructor
  · intro tvd key r h
    constructor
    · rw [assocFind_as_OrderedDict, h]
      rfl
    · unfold getitem
      rw [h]
      rfl
  · intro csd tvd key r info hnd hk hinfo hty hmut hr1 hr2 tvd' hup
    have hpairs := update_single csd tvd (as_OrderedDict tvd) tvd' hup
    have hmem : (key, PyVal.str r) ∈ as_OrderedDict tvd := by
      have h0 : (key, ((true : Bool), PyVal.str r)) ∈ tvd := assocFind_mem hk
      exact List.mem_map_of_mem _ h0
    have hnd2 : ((as_OrderedDict tvd).map Prod.fst).Nodup := by
      rw [as_OrderedDict_keys]
      exact hnd
    have := updatePairs_assocFind_of_mem csd key (PyVal.str r) info hinfo hmut
      (as_OrderedDict tvd) tvd tvd' hnd2 hmem hpairs
    rw [setitemPair_direct_str info r hty hr1 hr2] at this
    exact this

/-- C9, counterexample. The claim as stated (for *every* indirect
reference name) is false: `args_sep` set to `"a=="` stores the indirect
reference `a=` (one marker stripped); the snapshot then holds `"a="`, and
restoring it via `update` re-parses the trailing marker, storing the
*indirect* reference `a` — not the direct literal string `"a="`. -/
theorem C9_counterexample :
    setitem log_calls_settings [] ("args_sep".toList) (.str ("a==".toList)) false
        = .ok [("args_sep".toList, ((true : Bool), PyVal.str ("a=".toList)))]
    ∧ as_OrderedDict [("args_sep".toList, ((true : Bool), PyVal.str ("a=".toList)))]
        = [("args_sep".toList, PyVal.str ("a=".toList))]
    ∧ update log_calls_settings
        [("args_sep".toList, ((true : Bool), PyVal.str ("a=".toList)))]
        [[("args_sep".toList, PyVal.str ("a=".toList))]]
        = .ok [("args_sep".toList, ((true : Bool), PyVal.str ("a".toList)))] := by
  decide

/-- Witness for the amended C9: `args_sep` stored indirect with reference
name `sep`; the snapshot view drops the marker, `get` re-appends it, and
the restore stores the direct literal `sep`. -/
theorem C9_snapshot_restore_witness :
    assocFind (as_OrderedDict
        [("args_sep".toList, ((true : Bool), PyVal.str ("sep".toList)))])
        ("args_sep".toList) = some (PyVal.str ("sep".toList))
    ∧ getitem [("args_sep".toList, ((true : Bool), PyVal.str ("sep".toList)))]
        ("args_sep".toList) = some (PyVal.str ("sep=".toList))
    ∧ assocFind [("args_sep".toList, ((false : Bool), PyVal.str ("sep".toList)))]
        ("args_sep".toList) = some ((false : Bool), PyVal.str ("sep".toList)) := by
  obtain ⟨ha1, ha2⟩ := C9_snapshot_restore_loses_indirection.1
      [("args_sep".toList, (true, PyVal.str ("sep".toList)))] ("args_sep".toList)
      ("sep".toList) (by decide)
  refine ⟨ha1, ha2, ?_⟩
  exact C9_snapshot_restore_loses_indirection.2 log_calls_settings
      [("args_sep".toList, (true, PyVal.str ("sep".toList)))] ("args_sep".toList)
      ("sep".toList)
      ⟨"args_sep".toList, .str, .str (", ".toList), false, true, true⟩
      (by decide) (by decide) (by decide) (by decide) (by decide) (by decide)
      (by decide)
      [("args_sep".toList, ((false : Bool), PyVal.str ("sep".toList)))] (by decide)
